import Mathlib

/-!
Verification of the orchestration engine of `environment`
(src/src/environment-base.ts): namespace/alias resolution, the
composition-and-deduplication store, the priority task scheduler glue,
the commit pipeline and the lifecycle methods `run`, `start`,
`runGenerator` and `rootGenerator`.

Pure fragments of the TypeScript source are embedded as executable Lean
functions; stateful fragments are embedded as explicit state-passing
functions on small state records.  Behaviour of collaborator modules
that are not part of src/ (grouped-queue, ComposedStore, the conflicter
transform, the mem-fs change notification) is modelled from the spec and
marked as such in the corresponding doc comments.
-/

namespace Env

/-! ## Alias rules (EnvironmentBase.alias, src/src/environment-base.ts:457-481)

A registered alias is a pair of a matcher and a replacement value.  The
JavaScript matcher is a regular expression used through `.test()` and
`.replace()`; we embed a rule abstractly as the pair of those two
operations: a decidable `test` on strings and a `replace` function that
is applied when the test succeeds. -/

structure AliasRule where
  test : String → Bool
  replace : String → String

/-- One step of the alias reduce in `EnvironmentBase.alias`: a rule whose
matcher does not accept the intermediate string leaves it unchanged,
otherwise the replacement is performed. -/
def applyAlias (a : AliasRule) (resolved : String) : String :=
  if a.test resolved then a.replace resolved else resolved

/-- Getter branch of `EnvironmentBase.alias` for a string argument
(src/src/environment-base.ts:472-480): the registered rules are copied,
reversed, and folded over the input, each rule feeding its output to the
next. -/
def aliasGet (aliases : List AliasRule) (m : String) : String :=
  aliases.reverse.foldl (fun resolved a =>
    if a.test resolved then a.replace resolved else resolved) m

/-- Inputs that can reach the one-argument (getter) form of
`EnvironmentBase.alias`: a string, or a non-string value such as a
structural `YeomanNamespace` object (represented by its namespace
string). -/
inductive AliasInput where
  | str (s : String)
  | namespaceObj (ns : String)
deriving DecidableEq, Repr

/-- One-argument (getter) call of `EnvironmentBase.alias`
(src/src/environment-base.ts:459-481): with no `value` supplied the
setter branch is skipped; a non-string argument then hits
`throw new TypeError('string is required')`, and a string argument is
resolved through the reversed rule list. -/
def aliasGetter (aliases : List AliasRule) : AliasInput → Except String AliasInput
  | .str s => .ok (.str (aliasGet aliases s))
  | .namespaceObj _ => .error "string is required"

/-- Default rule registered by the `EnvironmentBase` constructor
(src/src/environment-base.ts:135): `^([^:]+)$` with replacement
`$1:app`.  The pattern accepts exactly the non-empty strings containing
no colon, and the replacement appends `:app` to the whole match. -/
def defaultAlias : AliasRule where
  test := fun s => !s.data.isEmpty && s.data.all (fun c => c != ':')
  replace := fun s => s ++ ":app"

/-- Alias list of a freshly constructed environment after user rules
were registered: the constructor pushes `defaultAlias` first, and every
later `alias(match, value)` call appends to the end of the list. -/
def envAliases (userRules : List AliasRule) : List AliasRule :=
  defaultAlias :: userRules

lemma aliasGet_nil (m : String) : aliasGet [] m = m := rfl

/-- A string accepted by no rule is a fixpoint of the alias fold. -/
lemma foldl_applyAlias_of_no_match (l : List AliasRule) (s : String)
    (h : ∀ a ∈ l, a.test s = false) :
    l.foldl (fun resolved a =>
      if a.test resolved then a.replace resolved else resolved) s = s := by
  induction l with
  | nil => rfl
  | cons a l ih =>
      have ha : a.test s = false := h a (List.mem_cons_self a l)
      simp only [List.foldl_cons, ha, Bool.false_eq_true, if_false]
      exact ih fun b hb => h b (List.mem_cons_of_mem a hb)

/-- A string no registered rule accepts resolves to itself. -/
lemma aliasGet_of_no_match (rules : List AliasRule) (s : String)
    (h : ∀ a ∈ rules, a.test s = false) : aliasGet rules s = s := by
  unfold aliasGet
  exact foldl_applyAlias_of_no_match _ s fun a ha =>
    h a (List.mem_reverse.mp ha)

/-- Appending a rule to the registry makes it the first rule applied on
resolution, its output feeding the previously registered rules. -/
lemma aliasGet_append_single (rules : List AliasRule) (r : AliasRule)
    (m : String) :
    aliasGet (rules ++ [r]) m = aliasGet rules (applyAlias r m) := by
  simp [aliasGet, applyAlias, List.reverse_append]

/-- Resolving through a registry with head rule `d` applies `d` last,
after all later-registered rules. -/
lemma aliasGet_cons (d : AliasRule) (rules : List AliasRule) (m : String) :
    aliasGet (d :: rules) m = applyAlias d (aliasGet rules m) := by
  simp [aliasGet, applyAlias, List.foldl_append]

end Env

namespace Env

/-- C5: the alias getter applies the registered rules in reverse
insertion order — a rule appended last is applied first, its output fed
as the input to the remaining rules; a rule whose matcher rejects the
intermediate string leaves it unchanged; and once no rule matches the
resolved result, resolving that result again returns it unchanged
(idempotence). -/
theorem alias_reverse_order_and_idempotent (rules : List AliasRule)
    (r : AliasRule) (m : String) :
    aliasGet (rules ++ [r]) m = aliasGet rules (applyAlias r m) ∧
    (r.test m = false → applyAlias r m = m) ∧
    ((∀ a ∈ rules, a.test (aliasGet rules m) = false) →
      aliasGet rules (aliasGet rules m) = aliasGet rules m) := by
  refine ⟨aliasGet_append_single rules r m, fun h => ?_, fun h => ?_⟩
  · simp [applyAlias, h]
  · exact aliasGet_of_no_match rules _ h

/-- Witness for C5 at the concrete input `"a:b"` with the default rule
registered twice: the input matches no rule, so both hypotheses hold. -/
theorem alias_reverse_order_and_idempotent_witness :
    aliasGet ([defaultAlias] ++ [defaultAlias]) "a:b"
      = aliasGet [defaultAlias] (applyAlias defaultAlias "a:b") ∧
    applyAlias defaultAlias "a:b" = "a:b" ∧
    aliasGet [defaultAlias] (aliasGet [defaultAlias] "a:b")
      = aliasGet [defaultAlias] "a:b" := by
  obtain ⟨h1, h2, h3⟩ :=
    alias_reverse_order_and_idempotent [defaultAlias] defaultAlias "a:b"
  refine ⟨h1, h2 (by decide), h3 ?_⟩
  intro a ha
  rw [List.mem_singleton.mp ha]
  decide

/-- C7: a bare single-segment identifier (non-empty, containing no
colon) that every other registered rule leaves unchanged resolves to the
identifier with the default action segment appended: `<identifier>:app`.
The default rule is the first pushed by the constructor, hence the last
applied. -/
theorem default_alias_appends_app (userRules : List AliasRule) (m : String)
    (hne : m.data ≠ []) (hc : ∀ c ∈ m.data, c ≠ ':')
    (hother : aliasGet userRules m = m) :
    aliasGet (envAliases userRules) m = m ++ ":app" := by
  rw [envAliases, aliasGet_cons, hother]
  simp only [applyAlias, defaultAlias]
  rw [if_pos]
  simp only [Bool.and_eq_true, Bool.not_eq_true', List.all_eq_true,
    List.isEmpty_eq_false, bne_iff_ne]
  exact ⟨hne, hc⟩

/-- Witness for C7 at the concrete identifier `"angular"` with no user
rules registered: `angular` resolves to `angular:app`. -/
theorem default_alias_appends_app_witness :
    aliasGet (envAliases []) "angular" = "angular" ++ ":app" :=
  default_alias_appends_app [] "angular" (by decide) (by decide) rfl

/-- C9 counterexample: the one-argument alias getter does not pass a
non-string (structural namespace) input through unresolved — it throws
`TypeError: string is required` (src/src/environment-base.ts:468-470). -/
theorem alias_getter_nonstring_counterexample :
    aliasGetter [] (.namespaceObj "foo:app") ≠ .ok (.namespaceObj "foo:app") ∧
    aliasGetter [] (.namespaceObj "foo:app") = .error "string is required" :=
  ⟨by simp [aliasGetter], rfl⟩

/-- C9 amended: only string inputs are subject to alias rules; a
non-string (structural namespace) input to the getter is never rewritten
— the getter fails with `TypeError: string is required` instead of
resolving or passing it through. -/
theorem alias_getter_string_only (rules : List AliasRule) (ns s : String) :
    aliasGetter rules (.namespaceObj ns) = .error "string is required" ∧
    aliasGetter rules (.str s) = .ok (.str (aliasGet rules s)) :=
  ⟨rfl, rfl⟩

end Env

namespace Env

/-! ## Composed store and generator queueing
(Environment.queueGenerator, src/src/environment-base.ts:1081-1115;
Environment.runGenerator, 1231-1239;
EnvironmentBase.rootGenerator, 268-275) -/

/-- A generator instance.  `identifier` is the composition key derived
from the instance itself (its resolved namespace/location), never from
the call site; `instId` distinguishes physically distinct instances that
share an identity. -/
structure GenInstance where
  identifier : String
  instId : Nat
deriving DecidableEq, Repr

/-- Result record of `ComposedStore.addGenerator`, destructured by
`Environment.queueGenerator` as `{ added, identifier, generator }`. -/
structure AddResult where
  added : Bool
  identifier : String
  generator : GenInstance
deriving DecidableEq, Repr

/-- Modelled from the spec: `ComposedStore.addGenerator`
(src/src/composed-store.ts is not among the sources).  The store keys
entries by the identifier derived from the generator instance; a second
request for an identifier already present returns `added = false`
together with the previously stored instance and leaves the store
untouched, otherwise the instance is stored and returned with
`added = true`. -/
def addGenerator (store : List (String × GenInstance)) (g : GenInstance) :
    AddResult × List (String × GenInstance) :=
  match store.lookup g.identifier with
  | some existing =>
      ({ added := false, identifier := g.identifier, generator := existing },
        store)
  | none =>
      ({ added := true, identifier := g.identifier, generator := g },
        store ++ [(g.identifier, g)])

/-- Observable side effects of `Environment.queueGenerator`:
the two composition events, and either the scheduled
`environment:run` task or the immediate `runGenerator` closure call. -/
inductive EnvEffect where
  | emitCompose (identifier : String) (g : GenInstance)
  | emitComposeId (identifier : String) (g : GenInstance)
  | queueRunTask (g : GenInstance)
  | runGen (g : GenInstance)
deriving DecidableEq, Repr

/-- Environment state threaded through the composition methods: the
composed store, the ordered log of observable effects, and the stored
root generator (`_rootGenerator`). -/
structure EnvState where
  composed : List (String × GenInstance)
  effects : List EnvEffect
  rootGen : Option GenInstance
deriving DecidableEq, Repr

/-- Embedding of `Environment.queueGenerator`
(src/src/environment-base.ts:1081-1115): adds the generator to the
composed store; when `added` is false the previously stored instance is
returned at once, with no event emission and no task; when `added` is
true the `compose` and `compose:<identifier>` events are emitted and the
run closure is either queued on the `environment:run` sub-queue
(`schedule = true`) or invoked immediately. -/
def queueGenerator (st : EnvState) (g : GenInstance) (schedule : Bool) :
    GenInstance × EnvState :=
  let r := addGenerator st.composed g
  if r.1.added = false then
    (r.1.generator, { st with composed := r.2 })
  else
    (g, { st with
      composed := r.2
      effects := st.effects ++
        [.emitCompose r.1.identifier g, .emitComposeId r.1.identifier g,
          if schedule then .queueRunTask g else .runGen g] })

/-- Embedding of `EnvironmentBase.rootGenerator`
(src/src/environment-base.ts:268-275): returns the stored
`_rootGenerator`. -/
def rootGenerator (st : EnvState) : Option GenInstance :=
  st.rootGen

/-- Embedding of `Environment.runGenerator`
(src/src/environment-base.ts:1231-1239): queues the generator, then runs
`this._rootGenerator = this._rootGenerator || generator` with the
composed instance returned by `queueGenerator` (schedule defaults to
false). -/
def runGenerator (st : EnvState) (g : GenInstance) : EnvState :=
  let r := queueGenerator st g false
  { r.2 with rootGen := match r.2.rootGen with
      | some root => some root
      | none => some r.1 }

/-- Number of global `compose` events carrying a given identifier in an
effect log. -/
def countCompose (effects : List EnvEffect) (id : String) : Nat :=
  (effects.filter fun e => match e with
    | .emitCompose i _ => i == id
    | _ => false).length

/-- Number of per-identifier `compose:<identifier>` events carrying a
given identifier in an effect log. -/
def countComposeId (effects : List EnvEffect) (id : String) : Nat :=
  (effects.filter fun e => match e with
    | .emitComposeId i _ => i == id
    | _ => false).length

lemma lookup_append_of_none {l₁ l₂ : List (String × GenInstance)}
    {k : String} (h : l₁.lookup k = none) :
    (l₁ ++ l₂).lookup k = l₂.lookup k := by
  induction l₁ with
  | nil => rfl
  | cons p l ih =>
      rw [List.lookup_cons] at h
      rcases hk : (k == p.1) with _ | _
      · rw [List.cons_append, List.lookup_cons, hk]
        exact ih (by simpa [hk] using h)
      · simp [hk] at h

/-- `queueGenerator` never touches the stored root generator. -/
lemma queueGenerator_rootGen (st : EnvState) (g : GenInstance)
    (schedule : Bool) : (queueGenerator st g schedule).2.rootGen = st.rootGen := by
  unfold queueGenerator
  dsimp only
  split <;> rfl

/-- `runGenerator` keeps an already stored root generator. -/
lemma runGenerator_rootGen_some {st : EnvState} {root : GenInstance}
    (g : GenInstance) (h : st.rootGen = some root) :
    (runGenerator st g).rootGen = some root := by
  unfold runGenerator
  dsimp only
  rw [queueGenerator_rootGen, h]

/-- Any sequence of further `runGenerator` calls keeps a stored root. -/
lemma foldl_runGenerator_rootGen_some {root : GenInstance}
    (gs : List GenInstance) :
    ∀ st : EnvState, st.rootGen = some root →
      (gs.foldl runGenerator st).rootGen = some root := by
  induction gs with
  | nil => exact fun st h => h
  | cons g gs ih =>
      exact fun st h => ih _ (runGenerator_rootGen_some g h)

lemma countCompose_append (l₁ l₂ : List EnvEffect) (id : String) :
    countCompose (l₁ ++ l₂) id = countCompose l₁ id + countCompose l₂ id := by
  simp [countCompose, List.filter_append]

lemma countComposeId_append (l₁ l₂ : List EnvEffect) (id : String) :
    countComposeId (l₁ ++ l₂) id
      = countComposeId l₁ id + countComposeId l₂ id := by
  simp [countComposeId, List.filter_append]

/-- Queueing a generator whose identity is not yet composed stores it,
returns it, and emits the two composition events followed by the run
effect. -/
lemma queueGenerator_fresh (st : EnvState) (g : GenInstance)
    (schedule : Bool) (hfresh : st.composed.lookup g.identifier = none) :
    queueGenerator st g schedule
      = (g, { st with
          composed := st.composed ++ [(g.identifier, g)]
          effects := st.effects ++
            [.emitCompose g.identifier g, .emitComposeId g.identifier g,
              if schedule then .queueRunTask g else .runGen g] }) := by
  simp [queueGenerator, addGenerator, hfresh]

/-- Queueing a generator whose identity is already composed returns the
stored instance and leaves the state unchanged. -/
lemma queueGenerator_existing (st : EnvState) (g : GenInstance)
    (schedule : Bool) (existing : GenInstance)
    (h : st.composed.lookup g.identifier = some existing) :
    queueGenerator st g schedule = (existing, st) := by
  simp [queueGenerator, addGenerator, h]

end Env

namespace Env

/-- C2: within one run, queueing the same generator identity twice gives
`added = false` from the composed store on the second call, returns the
exact instance stored by the first call, and changes nothing else
(identical environment state, so no events and no queued task); the
`compose` and `compose:<identifier>` events appear in the effect log
exactly once more than before, appended at the moment the generator was
first added. -/
theorem queueGenerator_dedup_and_events (st : EnvState) (g g' : GenInstance)
    (schedule schedule' : Bool)
    (hfresh : st.composed.lookup g.identifier = none)
    (hid : g'.identifier = g.identifier) :
    (queueGenerator st g schedule).1 = g ∧
    (addGenerator (queueGenerator st g schedule).2.composed g').1.added
      = false ∧
    (queueGenerator (queueGenerator st g schedule).2 g' schedule').1 = g ∧
    (queueGenerator (queueGenerator st g schedule).2 g' schedule').2
      = (queueGenerator st g schedule).2 ∧
    (queueGenerator st g schedule).2.effects
      = st.effects ++
          [.emitCompose g.identifier g, .emitComposeId g.identifier g,
            if schedule then .queueRunTask g else .runGen g] ∧
    countCompose
        (queueGenerator (queueGenerator st g schedule).2 g' schedule').2.effects
        g.identifier
      = countCompose st.effects g.identifier + 1 ∧
    countComposeId
        (queueGenerator (queueGenerator st g schedule).2 g' schedule').2.effects
        g.identifier
      = countComposeId st.effects g.identifier + 1 := by
  have hq1 := queueGenerator_fresh st g schedule hfresh
  have hcomposed : (queueGenerator st g schedule).2.composed
      = st.composed ++ [(g.identifier, g)] := by rw [hq1]
  have heffects : (queueGenerator st g schedule).2.effects
      = st.effects ++
          [.emitCompose g.identifier g, .emitComposeId g.identifier g,
            if schedule then .queueRunTask g else .runGen g] := by rw [hq1]
  have hlookup : (queueGenerator st g schedule).2.composed.lookup g'.identifier
      = some g := by
    rw [hcomposed, hid]
    exact (lookup_append_of_none hfresh).trans (by simp [List.lookup])
  have hadd : addGenerator (queueGenerator st g schedule).2.composed g'
      = ({ added := false, identifier := g'.identifier, generator := g },
          (queueGenerator st g schedule).2.composed) := by
    simp [addGenerator, hlookup]
  have hq2 : queueGenerator (queueGenerator st g schedule).2 g' schedule'
      = (g, (queueGenerator st g schedule).2) :=
    queueGenerator_existing _ g' schedule' g hlookup
  refine ⟨by rw [hq1], by rw [hadd], by rw [hq2], by rw [hq2], heffects,
    ?_, ?_⟩
  · rw [hq2]
    dsimp only
    rw [heffects, countCompose_append]
    cases schedule <;> simp [countCompose, List.filter]
  · rw [hq2]
    dsimp only
    rw [heffects, countComposeId_append]
    cases schedule <;> simp [countComposeId, List.filter]

/-- Witness for C2: two instances sharing the identity `foo:app` queued
into an empty environment; all hypotheses hold definitionally. -/
theorem queueGenerator_dedup_and_events_witness :
    (queueGenerator ⟨[], [], none⟩ ⟨"foo:app", 0⟩ false).1
      = ⟨"foo:app", 0⟩ ∧
    (addGenerator (queueGenerator ⟨[], [], none⟩ ⟨"foo:app", 0⟩ false).2.composed
        ⟨"foo:app", 1⟩).1.added = false ∧
    (queueGenerator (queueGenerator ⟨[], [], none⟩ ⟨"foo:app", 0⟩ false).2
        ⟨"foo:app", 1⟩ false).1 = ⟨"foo:app", 0⟩ ∧
    (queueGenerator (queueGenerator ⟨[], [], none⟩ ⟨"foo:app", 0⟩ false).2
        ⟨"foo:app", 1⟩ false).2
      = (queueGenerator ⟨[], [], none⟩ ⟨"foo:app", 0⟩ false).2 ∧
    (queueGenerator ⟨[], [], none⟩ ⟨"foo:app", 0⟩ false).2.effects
      = [] ++
          [.emitCompose "foo:app" ⟨"foo:app", 0⟩,
            .emitComposeId "foo:app" ⟨"foo:app", 0⟩,
            if false then .queueRunTask ⟨"foo:app", 0⟩
              else .runGen ⟨"foo:app", 0⟩] ∧
    countCompose
        (queueGenerator (queueGenerator ⟨[], [], none⟩ ⟨"foo:app", 0⟩ false).2
          ⟨"foo:app", 1⟩ false).2.effects "foo:app"
      = countCompose [] "foo:app" + 1 ∧
    countComposeId
        (queueGenerator (queueGenerator ⟨[], [], none⟩ ⟨"foo:app", 0⟩ false).2
          ⟨"foo:app", 1⟩ false).2.effects "foo:app"
      = countComposeId [] "foo:app" + 1 :=
  queueGenerator_dedup_and_events ⟨[], [], none⟩ ⟨"foo:app", 0⟩
    ⟨"foo:app", 1⟩ false false rfl rfl

/-- C10: the stored root generator is set by the first `runGenerator`
call and never replaced afterwards: `queueGenerator` leaves it untouched
in every state, `runGenerator` preserves a stored root, and after a
first `runGenerator` on an environment with no root followed by any
sequence of further `runGenerator` calls, `rootGenerator()` returns the
instance composed by the first call — for a fresh identity, exactly the
generator passed to the first call. -/
theorem rootGenerator_is_first_runGenerator (st : EnvState)
    (g : GenInstance) (gs : List GenInstance) (hroot : st.rootGen = none) :
    (∀ (s : EnvState) (h : GenInstance) (sch : Bool),
        (queueGenerator s h sch).2.rootGen = s.rootGen) ∧
    (∀ (s : EnvState) (root h : GenInstance), s.rootGen = some root →
        rootGenerator (runGenerator s h) = some root) ∧
    rootGenerator (gs.foldl runGenerator (runGenerator st g))
      = some (queueGenerator st g false).1 ∧
    (st.composed.lookup g.identifier = none →
      rootGenerator (gs.foldl runGenerator (runGenerator st g)) = some g) := by
  have hfirst : (runGenerator st g).rootGen
      = some (queueGenerator st g false).1 := by
    unfold runGenerator
    dsimp only
    rw [queueGenerator_rootGen, hroot]
  have hall : rootGenerator (gs.foldl runGenerator (runGenerator st g))
      = some (queueGenerator st g false).1 :=
    foldl_runGenerator_rootGen_some gs _ hfirst
  refine ⟨queueGenerator_rootGen, fun s root h hs =>
    runGenerator_rootGen_some h hs, hall, fun hfresh => ?_⟩
  rw [hall, queueGenerator_fresh st g false hfresh]

/-- Witness for C10: a first run of generator `a:app` on an empty
environment followed by a run of `b:app`; the root generator stays
`a:app`. -/
theorem rootGenerator_is_first_runGenerator_witness :
    rootGenerator (List.foldl runGenerator
        (runGenerator ⟨[], [], none⟩ ⟨"a:app", 0⟩) [⟨"b:app", 1⟩])
      = some ⟨"a:app", 0⟩ :=
  (rootGenerator_is_first_runGenerator ⟨[], [], none⟩ ⟨"a:app", 0⟩
    [⟨"b:app", 1⟩] rfl).2.2.2 rfl

end Env

namespace Env

/-! ## Task scheduler (EnvironmentBase.queueTask,
src/src/environment-base.ts:293-313; Environment.start, 1164-1223)

The run loop itself is the grouped-queue dependency, which is not among
the sources; its draining behaviour is modelled from the spec.  The
`queueTask` wrapper and the `start` event handlers are embedded from the
source. -/

/-- A scheduled task: an id and the outcome of the wrapped action.  The
wrapper installed by `EnvironmentBase.queueTask` awaits the action and
calls `done()` on success or `stop(error)` when the action throws or
rejects. -/
structure QTask where
  id : Nat
  action : Except Nat Unit

/-- Scheduler states of the run loop. -/
inductive SchedState where
  | running
  | paused
  | ended
deriving DecidableEq, Repr

/-- Observable result of draining the run loop: the final scheduler
state, the ids of the task actions that ran (in execution order), and
the errors the run loop emitted. -/
structure DrainResult where
  state : SchedState
  executed : List Nat
  errors : List Nat

/-- Modelled from the spec: draining of the grouped-queue run loop
(the grouped-queue package is not among the sources).  Tasks run
strictly in order, one at a time; `done()` moves to the next task;
`stop(error)` pauses the scheduler and emits the error on the run loop,
without retrying the failed action and without continuing to drain;
when everything is drained the run loop emits `end` and is ended. -/
def drain : List QTask → DrainResult
  | [] => { state := .ended, executed := [], errors := [] }
  | t :: rest =>
      match t.action with
      | .ok _ =>
          let r := drain rest
          { r with executed := t.id :: r.executed }
      | .error e => { state := .paused, executed := [t.id], errors := [e] }

/-- Environment-side error forwarding installed by `Environment.start`
(src/src/environment-base.ts:1202-1205): every run loop `error` event is
re-emitted as an environment `error` event and the interactive adapter
is closed. -/
structure ErrorForwarding where
  schedulerErrors : List Nat
  adapterClosed : Bool
deriving DecidableEq, Repr

/-- Embedding of the `runLoop.on('error', ...)` handler of
`Environment.start`: forwards each run loop error to environment
listeners and closes the adapter whenever at least one error fired. -/
def forwardRunLoopErrors (r : DrainResult) : ErrorForwarding :=
  { schedulerErrors := r.errors, adapterClosed := !r.errors.isEmpty }

/-- Events observed by the settlement handlers of `Environment.start`
(src/src/environment-base.ts:1187-1218). -/
inductive RunEvent where
  | errorEvent (e : Nat)
  | generatorReject (e : Nat)
  | generatorResolve (v : Nat)
  | ended
  | other
deriving DecidableEq, Repr

/-- Settlement outcome of the promise returned by `Environment.start`. -/
inductive Outcome where
  | pending
  | resolved (v : Option Nat)
  | rejected (e : Nat)
deriving DecidableEq, Repr

/-- Settling effect of one event under the handlers installed by
`Environment.start`: `error` and `generator:reject` reject,
`generator:resolve` resolves with its payload, the environment `end`
event (relayed from the run loop `end`) resolves with undefined, other
events (`run`, `paused`, compositions) do not settle. -/
def settleEvent : RunEvent → Option Outcome
  | .errorEvent e => some (.rejected e)
  | .generatorReject e => some (.rejected e)
  | .generatorResolve v => some (.resolved (some v))
  | .ended => some (.resolved none)
  | .other => none

/-- Promise semantics of `Environment.start`: the promise settles with
the first settling event, later events are ignored. -/
def startOutcome : List RunEvent → Outcome
  | [] => .pending
  | e :: rest =>
      match settleEvent e with
      | some o => o
      | none => startOutcome rest

/-- Events a full drain of the run loop surfaces to the `start`
handlers: the forwarded error events, then the environment `end` event
when and only when the run loop reached its ended state. -/
def drainRunEvents (tasks : List QTask) : List RunEvent :=
  (drain tasks).errors.map .errorEvent ++
    (if (drain tasks).state = .ended then [.ended] else [])

/-- Result the run promise resolves with on success: `runGenerator`
returns `Promise<void>`, so the root generator result surfaced by
`resolve()` is undefined. -/
def rootGeneratorResult : Option Nat := none

/-- First error produced by a task action in queue order. -/
def firstError (tasks : List QTask) : Option Nat :=
  tasks.findSome? fun t =>
    match t.action with
    | .error e => some e
    | .ok _ => none

lemma drain_ok_cons {t : QTask} (rest : List QTask) (h : t.action = .ok ()) :
    drain (t :: rest)
      = { drain rest with executed := t.id :: (drain rest).executed } := by
  simp [drain, h]

end Env

namespace Env

/-- C1: the promise returned by `Environment.start` (and therefore by
`Environment.runGenerator`, which awaits `start`) resolves with the root
generator result (undefined, as `runGenerator` returns `Promise<void>`)
exactly when the run loop drains every task action successfully and
reaches its ended state, and rejects with the first propagated task
error otherwise. -/
theorem start_resolves_or_rejects (tasks : List QTask) :
    (firstError tasks = none →
      startOutcome (drainRunEvents tasks) = .resolved rootGeneratorResult) ∧
    (∀ e, firstError tasks = some e →
      startOutcome (drainRunEvents tasks) = .rejected e) := by
  induction tasks with
  | nil =>
      exact ⟨fun _ => rfl, fun e he => by simp [firstError] at he⟩
  | cons t rest ih =>
      rcases ht : t.action with e | u
      · refine ⟨fun hnone => ?_, fun e' he' => ?_⟩
        · simp [firstError, ht] at hnone
        · have : e' = e := by
            simp [firstError, List.findSome?, ht] at he'
            exact he'.symm
          subst this
          simp [drainRunEvents, drain, ht, startOutcome, settleEvent]
      · rcases u
        have hfe : firstError (t :: rest) = firstError rest := by
          simp [firstError, List.findSome?, ht]
        have hev : drainRunEvents (t :: rest) = drainRunEvents rest := by
          simp [drainRunEvents, drain_ok_cons rest ht]
        rw [hfe, hev]
        exact ih

/-- Witness for C1: an all-successful queue resolves with undefined; a
queue whose second task fails rejects with that first error. -/
theorem start_resolves_or_rejects_witness :
    startOutcome (drainRunEvents [⟨0, .ok ()⟩])
      = .resolved rootGeneratorResult ∧
    startOutcome (drainRunEvents [⟨0, .ok ()⟩, ⟨1, .error 7⟩, ⟨2, .ok ()⟩])
      = .rejected 7 :=
  ⟨(start_resolves_or_rejects [⟨0, .ok ()⟩]).1 rfl,
    (start_resolves_or_rejects
      [⟨0, .ok ()⟩, ⟨1, .error 7⟩, ⟨2, .ok ()⟩]).2 7 rfl⟩

/-- C4: when a queued task action throws or rejects, the wrapper
installed by `EnvironmentBase.queueTask` calls `stop(error)`: the
scheduler pauses instead of continuing to drain (no task after the
failing one runs), the failed action is not retried (it executed exactly
once), the error is emitted by the run loop and forwarded to environment
listeners as a scheduler error event, and the interactive adapter is
closed. -/
theorem task_error_pauses_scheduler (pre post : List QTask) (t : QTask)
    (e : Nat) (hpre : ∀ p ∈ pre, p.action = .ok ())
    (ht : t.action = .error e) :
    (drain (pre ++ t :: post)).state = .paused ∧
    (drain (pre ++ t :: post)).executed = pre.map QTask.id ++ [t.id] ∧
    (drain (pre ++ t :: post)).errors = [e] ∧
    forwardRunLoopErrors (drain (pre ++ t :: post))
      = { schedulerErrors := [e], adapterClosed := true } := by
  have hdrain : drain (pre ++ t :: post)
      = { state := .paused, executed := pre.map QTask.id ++ [t.id],
          errors := [e] } := by
    induction pre with
    | nil => simp [drain, ht]
    | cons p pre ih =>
        have hp : p.action = .ok () := hpre p (List.mem_cons_self p pre)
        have hrest := ih fun q hq => hpre q (List.mem_cons_of_mem p hq)
        rw [List.cons_append, drain_ok_cons _ hp, hrest]
        simp
  rw [hdrain]
  exact ⟨rfl, rfl, rfl, rfl⟩

/-- Witness for C4: a successful task, then a failing task, then another
queued task; the scheduler pauses after the failure and the trailing
task never runs. -/
theorem task_error_pauses_scheduler_witness :
    (drain [⟨0, .ok ()⟩, ⟨1, .error 5⟩, ⟨2, .ok ()⟩]).state = .paused ∧
    (drain [⟨0, .ok ()⟩, ⟨1, .error 5⟩, ⟨2, .ok ()⟩]).executed
      = [⟨0, .ok ()⟩].map QTask.id ++ [1] ∧
    (drain [⟨0, .ok ()⟩, ⟨1, .error 5⟩, ⟨2, .ok ()⟩]).errors = [5] ∧
    forwardRunLoopErrors (drain [⟨0, .ok ()⟩, ⟨1, .error 5⟩, ⟨2, .ok ()⟩])
      = { schedulerErrors := [5], adapterClosed := true } :=
  task_error_pauses_scheduler [⟨0, .ok ()⟩] [⟨2, .ok ()⟩] ⟨1, .error 5⟩ 5
    (fun p hp => by rw [List.mem_singleton.mp hp]) rfl

end Env

namespace Env

/-! ## Commit pipeline re-entrancy (Environment.queueCommit,
src/src/environment-base.ts:1266-1293) -/

/-- State threaded through the commit glue: whether the commit task is
pending on the `environment:conflicts` sub-queue (under the once key
`write memory fs to disk`), whether the one-shot subscription to the
staged filesystem change notification is armed, and the staged and
committed file lists. -/
structure CommitState where
  commitTaskPending : Bool
  changeSubscribed : Bool
  staged : List String
  committed : List String
deriving DecidableEq, Repr

/-- Embedding of the inner `queueCommit` closure
(src/src/environment-base.ts:1270-1290): queues the commit task under
the once key `write memory fs to disk`.  Modelled from the spec: the
grouped-queue once option drops the new task while one with the same key
is still pending in the sub-queue. -/
def queueCommitClosure (st : CommitState) : CommitState :=
  if st.commitTaskPending then st else { st with commitTaskPending := true }

/-- Embedding of the queued commit task body
(src/src/environment-base.ts:1273-1285): the run loop takes the task off
the sub-queue (freeing its once key), the task commits the pending
staged files through `commitSharedFs`, and only after the commit pass
completes subscribes once to the change notification of the staged
filesystem, re-arming `queueCommit`. -/
def runCommitTask (st : CommitState) : CommitState :=
  if st.commitTaskPending then
    { commitTaskPending := false
      changeSubscribed := true
      staged := []
      committed := st.committed ++ st.staged }
  else st

/-- Modelled from the spec: staging a write into the shared mem-fs store
fires its change notification (mem-fs is not among the sources); a
one-shot subscription removes itself and then runs the `queueCommit`
closure. -/
def stageWrite (st : CommitState) (f : String) : CommitState :=
  let st1 := { st with staged := st.staged ++ [f] }
  if st1.changeSubscribed then
    queueCommitClosure { st1 with changeSubscribed := false }
  else st1

end Env

namespace Env

/-- C3: after every commit pass the task subscribes exactly once to the
change notification of the staged filesystem (the subscription flag is
armed by the pass itself, one-shot); a write staged after the pass fires
the notification, which re-queues the commit task, and the next pass
commits that late write instead of losing it. -/
theorem commit_resubscribes_and_requeues (st : CommitState) (f : String)
    (hpending : st.commitTaskPending = true) :
    (runCommitTask st).changeSubscribed = true ∧
    (runCommitTask st).commitTaskPending = false ∧
    (runCommitTask st).committed = st.committed ++ st.staged ∧
    (stageWrite (runCommitTask st) f).commitTaskPending = true ∧
    (stageWrite (runCommitTask st) f).changeSubscribed = false ∧
    (runCommitTask (stageWrite (runCommitTask st) f)).committed
      = st.committed ++ st.staged ++ [f] := by
  simp [runCommitTask, stageWrite, queueCommitClosure, hpending]

/-- Witness for C3: a pending commit task over one staged file, then a
late write `late.txt` staged after the pass; the second pass commits
it. -/
theorem commit_resubscribes_and_requeues_witness :
    (runCommitTask ⟨true, false, ["a.txt"], []⟩).changeSubscribed = true ∧
    (runCommitTask ⟨true, false, ["a.txt"], []⟩).commitTaskPending = false ∧
    (runCommitTask ⟨true, false, ["a.txt"], []⟩).committed
      = [] ++ ["a.txt"] ∧
    (stageWrite (runCommitTask ⟨true, false, ["a.txt"], []⟩)
        "late.txt").commitTaskPending = true ∧
    (stageWrite (runCommitTask ⟨true, false, ["a.txt"], []⟩)
        "late.txt").changeSubscribed = false ∧
    (runCommitTask (stageWrite (runCommitTask ⟨true, false, ["a.txt"], []⟩)
        "late.txt")).committed = [] ++ ["a.txt"] ++ ["late.txt"] :=
  commit_resubscribes_and_requeues ⟨true, false, ["a.txt"], []⟩ "late.txt" rfl

end Env

namespace Env

/-! ## Commit pass force policy (Environment.commitSharedFs,
src/src/environment-base.ts:1241-1264) -/

/-- A staged file as the commit stream sees it: its path, the pending
flag, whether the target on disk differs, and the conflicter policy
marker. -/
structure StagedFile where
  path : String
  pending : Bool
  diskDiffers : Bool
  conflicter : Option String
deriving DecidableEq, Repr

/-- The well-known control files force-written by the commit pass. -/
def controlFileNames : List String :=
  [".yo-rc.json", ".yo-resolve", ".yo-rc-global.json"]

/-- Base name of a slash-separated path: the characters after the last
slash. -/
def basenameOf (p : String) : String :=
  String.mk (p.data.foldl (fun acc c => if c = '/' then [] else acc ++ [c]) [])

/-- The force passthrough pattern of `commitSharedFs`: the glob matches
every path whose base name is one of the three control files, at any
depth. -/
def matchesControlPattern (p : String) : Bool :=
  controlFileNames.contains (basenameOf p)

/-- Embedding of the first transform of `Environment.commitSharedFs`
(src/src/environment-base.ts:1251-1255): files matching the control file
pattern get the `force` conflicter marker. -/
def markForcedFile (f : StagedFile) : StagedFile :=
  if matchesControlPattern f.path then { f with conflicter := some "force" }
  else f

/-- Per-file outcome of the conflicter and commit transforms. -/
structure FileOutcome where
  written : Bool
  prompted : Bool
deriving DecidableEq, Repr

/-- Modelled from the spec: the conflicter transform (the conflicter
package is not among the sources).  A file carrying the `force` marker
is written without prompting; a target identical on disk is written
without prompting; otherwise a forced run overwrites, a dry run skips
the physical write, and otherwise the adapter is prompted and the
returned decision applied. -/
def conflicterDecision (force dryRun : Bool) (promptAnswer : String → Bool)
    (f : StagedFile) : FileOutcome :=
  if f.conflicter = some "force" then { written := true, prompted := false }
  else if !f.diskDiffers then { written := true, prompted := false }
  else if force then { written := true, prompted := false }
  else if dryRun then { written := false, prompted := false }
  else { written := promptAnswer f.path, prompted := true }

/-- Embedding of one commit pass of `Environment.commitSharedFs`
(src/src/environment-base.ts:1246-1264): the stream is filtered to
pending files, the force marker passthrough runs first, then the
conflicter and commit transforms produce each file outcome. -/
def commitSharedFs (force dryRun : Bool) (promptAnswer : String → Bool)
    (files : List StagedFile) : List (StagedFile × FileOutcome) :=
  (files.filter fun f => f.pending).map fun f =>
    (markForcedFile f, conflicterDecision force dryRun promptAnswer
      (markForcedFile f))

end Env

namespace Env

/-- C8: in every commit pass, a pending staged file whose path matches
one of the well-known control files is marked with the `force` policy
and is written without prompting — whatever the conflicter options and
whatever the `diskDiffers` flag of the file say. -/
theorem control_files_force_written (force dryRun : Bool)
    (promptAnswer : String → Bool) (files : List StagedFile)
    (f : StagedFile) (hf : f ∈ files) (hpending : f.pending = true)
    (hmatch : matchesControlPattern f.path = true) :
    (markForcedFile f).conflicter = some "force" ∧
    conflicterDecision force dryRun promptAnswer (markForcedFile f)
      = { written := true, prompted := false } ∧
    (markForcedFile f,
        ({ written := true, prompted := false } : FileOutcome))
      ∈ commitSharedFs force dryRun promptAnswer files := by
  have hmark : (markForcedFile f).conflicter = some "force" := by
    simp [markForcedFile, hmatch]
  have hdec : conflicterDecision force dryRun promptAnswer (markForcedFile f)
      = { written := true, prompted := false } := by
    simp [conflicterDecision, hmark]
  refine ⟨hmark, hdec, ?_⟩
  have hfp : f ∈ files.filter fun f => f.pending :=
    List.mem_filter.mpr ⟨hf, hpending⟩
  have := List.mem_map_of_mem
    (fun f => (markForcedFile f, conflicterDecision force dryRun promptAnswer
      (markForcedFile f))) hfp
  simpa [commitSharedFs, hdec] using this

/-- Witness for C8: a pending `.yo-rc.json` under a sub-directory whose
target differs on disk is force-written without a prompt even with all
conflicter options off. -/
theorem control_files_force_written_witness :
    (markForcedFile ⟨"sub/.yo-rc.json", true, true, none⟩).conflicter
      = some "force" ∧
    conflicterDecision false false (fun _ => false)
        (markForcedFile ⟨"sub/.yo-rc.json", true, true, none⟩)
      = { written := true, prompted := false } ∧
    (markForcedFile ⟨"sub/.yo-rc.json", true, true, none⟩,
        ({ written := true, prompted := false } : FileOutcome))
      ∈ commitSharedFs false false (fun _ => false)
          [⟨"sub/.yo-rc.json", true, true, none⟩] :=
  control_files_force_written false false (fun _ => false)
    [⟨"sub/.yo-rc.json", true, true, none⟩]
    ⟨"sub/.yo-rc.json", true, true, none⟩
    (List.mem_singleton.mpr rfl) rfl (by decide)

end Env

namespace Env

/-! ## Experimental install-then-retry path (Environment.run,
src/src/environment-base.ts:1126-1158) -/

/-- JS truthiness of the value of `this.get(name)` in the guard of
`Environment.run` (src/src/environment-base.ts:1150): `get` is an async
method, so the unawaited call yields a Promise object, and an object is
always truthy. -/
def promiseTruthy : Bool := true

/-- Embedding of the guard `this.experimental && !this.get(name)` in
`Environment.run` (src/src/environment-base.ts:1150), deciding whether
the opportunistic `prepareEnvironment` install path runs.  `resolvable`
records whether the requested generator can actually be resolved; the
guard never consults it because the promise is not awaited. -/
def runTriesInstall (experimental : Bool) (resolvable : Bool) : Bool :=
  experimental && !promiseTruthy

/-- The guard the claim and the spec describe: the install is attempted
exactly when the environment is in experimental mode and the requested
generator cannot be resolved. -/
def claimedTriesInstall (experimental : Bool) (resolvable : Bool) : Bool :=
  experimental && !resolvable

/-- C6: the code never takes the opportunistic install path, for any
experimental flag and any resolvability — in particular not in the
failing configuration (experimental mode on, unresolvable generator)
where the claim and the debug message at line 1151 say it should.  The
guard negates an unawaited Promise, which is always truthy, so
`!this.get(name)` is always false. -/
theorem run_install_path_never_taken :
    (∀ experimental resolvable : Bool,
      runTriesInstall experimental resolvable = false) ∧
    runTriesInstall true false = false ∧
    claimedTriesInstall true false = true :=
  ⟨fun experimental _ => by simp [runTriesInstall, promiseTruthy], rfl, rfl⟩

end Env
